import Mathlib

/-!
Verification of the FunForks/react-slider repository.

The repository has two logical components (spec §2):
* a Shared Value Store (`SliderContext.jsx`): a provider holding
  `maxValue` (initialised to 100) and `value` (initialised to 50) and
  exposing `{ maxValue, value, setValue }` to consumers;
* a Drag-to-Value Mapper (`Slider.jsx`, the context-wired variant, which
  the spec designates as canonical): `initialize` measures the geometry,
  `startDrag` records the pointer offset and registers a `mousemove`
  listener plus a one-shot `mouseup` listener, and `drag` turns each move
  event into a clamped, quantised thumb offset and a store write.

Numbers are modelled as rationals (the arithmetic involved is exact:
additions, subtractions, multiplications, divisions by non-zero
quantities, `Math.round`).  JavaScript's `Math.round` rounds half-up,
which is Mathlib's `round` (`round x = ⌊x + 1/2⌋`).  The quantised slider
value produced by `Math.round` is an integer, so store writes carry a
`ℤ`.  Setter calls (`setValue` / `setLeft`) are modelled as explicit
emitted write events so that counting writes is possible.
-/

namespace ReactSlider

/-- The mutable per-gesture data kept in `dragData.current` in
`Slider.jsx`: the last recorded thumb offset `left`, the maximal travel
distance `max = trackWidth - thumbWidth`, and the pointer-offset
correction term `offset` (set by `startDrag`; `initialize` leaves it
undefined, modelled as 0, and it is always set before `drag` can run). -/
structure DragData where
  left : ℚ
  max : ℚ
  offset : ℚ
  deriving DecidableEq

/-- The clamped candidate offset computed at the top of `drag`:
`Math.max(0, Math.min(event.pageX + offset, max))`. -/
def clampNext (m o x : ℚ) : ℚ :=
  max 0 (min (x + o) m)

/-- One invocation of the `drag` mousemove handler from `Slider.jsx`
(context-wired variant).  Input: the shared `maxValue`, the current
`dragData.current`, and the event's `pageX`.  Output: the updated
`dragData.current` together with the writes performed, `none` when the
handler took the no-op branch, `some (value, next)` when it called
`setValue(value)` and `setLeft(next)` (with `next` already re-snapped). -/
def dragMove (maxValue : ℚ) (dd : DragData) (pageX : ℚ) :
    DragData × Option (ℤ × ℚ) :=
  let next := clampNext dd.max dd.offset pageX
  if dd.left ≠ next then
    let value : ℤ := round ((next / dd.max) * maxValue)
    let next' := (dd.max * (value : ℚ)) / maxValue
    ({ dd with left := next' }, some (value, next'))
  else
    (dd, none)

/-- The write a non-no-op `drag` invocation performs, as a function of
the gesture constants `max` and `offset` (which `drag` never changes)
and the event's `pageX` alone. -/
def emit (maxValue m o x : ℚ) : ℤ × ℚ :=
  let next := clampNext m o x
  let v : ℤ := round ((next / m) * maxValue)
  (v, (m * (v : ℚ)) / maxValue)

/-- Deliver a list of mousemove events (their `pageX` coordinates) to
`drag` in order, threading `dragData.current` through and collecting
every `(setValue, setLeft)` write pair that is performed. -/
def runMoves (maxValue : ℚ) : DragData → List ℚ → DragData × List (ℤ × ℚ)
  | dd, [] => (dd, [])
  | dd, x :: xs =>
    let r := dragMove maxValue dd x
    let rest := runMoves maxValue r.1 xs
    (rest.1, r.2.toList ++ rest.2)

/-- The `initialize` effect of `Slider.jsx` (run once on mount): from
the shared `maxValue`/`value` and the measured slider and thumb widths
it computes `max = sliderWidth - width` and
`left = (max * value) / maxValue`, stores both in `dragData.current`
(the pointer offset is not yet set; modelled as 0) and calls
`setLeft(left)`, returned as the second component. -/
def initSlider (maxValue value sliderWidth thumbWidth : ℚ) :
    DragData × ℚ :=
  let m := sliderWidth - thumbWidth
  let left := (m * value) / maxValue
  ({ left := left, max := m, offset := 0 }, left)

/-- The state held by `SliderProvider` in `SliderContext.jsx`:
`maxValue` and `value`. -/
structure SliderState where
  maxValue : ℚ
  value : ℚ
  deriving DecidableEq

/-- The state the provider starts with: `useState(100)` for `maxValue`
and `useState(50)` for `value`. -/
def initialSliderState : SliderState :=
  { maxValue := 100, value := 50 }

/-- The operations reachable through the context value.  The provider
shares exactly `{ maxValue, value, setValue }`: reading is side-effect
free, so the only mutating operation a consumer can reach is
`setValue` (`setMaxValue` exists inside the provider closure but is not
placed in the shared value). -/
inductive StoreOp where
  | setValue (next : ℚ)
  deriving DecidableEq

/-- Effect of one exposed store operation: `setValue` replaces `value`
unconditionally (no clamping at this layer, spec §4.1). -/
def applyOp (s : SliderState) : StoreOp → SliderState
  | .setValue n => { s with value := n }

/-- Whole-system state for the event-level model: the shared store
value, the constant shared `maxValue`, the component's `left` display
state, `dragData.current`, and the number of currently registered
`mousemove` listeners on `document.body`. -/
structure SysState where
  value : ℚ
  maxValue : ℚ
  left : ℚ
  dd : DragData
  listeners : Nat
  deriving DecidableEq

/-- Browser events the slider reacts to, carrying the pointer's
`pageX` where the handler reads it. -/
inductive Ev where
  | down (pageX : ℚ)
  | move (pageX : ℚ)
  | up
  deriving DecidableEq

/-- `startDrag` (mousedown on the thumb): store
`dragData.current.offset = dragData.current.left - event.pageX`, then
register a fresh `drag` closure as a `mousemove` listener and a
one-shot `drop` as a `mouseup` listener.  The registration is
unconditional, and each call creates a new closure, so the listener
count always grows by one. -/
def handleDown (s : SysState) (pageX : ℚ) : SysState :=
  { s with
    dd := { s.dd with offset := s.dd.left - pageX },
    listeners := s.listeners + 1 }

/-- One registered `drag` listener processing a move event: all
closures read and write the same `dragData.current` and call the same
`setValue`/`setLeft`. -/
def deliverMove (pageX : ℚ) (s : SysState) : SysState :=
  let r := dragMove s.maxValue s.dd pageX
  match r.2 with
  | some (v, l) => { s with dd := r.1, value := (v : ℚ), left := l }
  | none => { s with dd := r.1 }

/-- A physical mousemove event runs every registered listener in
registration order. -/
def handleMove (s : SysState) (pageX : ℚ) : SysState :=
  (deliverMove pageX)^[s.listeners] s

/-- A mouseup fires every registered one-shot `drop`, each of which
removes its own `drag` listener, so no move listener survives. -/
def handleUp (s : SysState) : SysState :=
  { s with listeners := 0 }

/-- Dispatch one browser event. -/
def stepEv (s : SysState) : Ev → SysState
  | .down x => handleDown s x
  | .move x => handleMove s x
  | .up => handleUp s

/-- Run a sequence of browser events. -/
def runEvents (s : SysState) (evs : List Ev) : SysState :=
  evs.foldl stepEv s

/-- The application's mounted state: provider state `(100, 50)` and the
geometry of the canonical scenario (track width 320, thumb width 32),
as produced by `initialize`. -/
def initApp : SysState :=
  let r := initSlider 100 50 320 32
  { value := 50, maxValue := 100, left := r.2, dd := r.1, listeners := 0 }

/-- Modelled from the claim's words (for the refinement claim C1): on a
move event, "compute `candidate = pointerX + pointerOffset`, clamp it
to `[0, maxTravel]` giving `nextLeft`, and if `nextLeft` differs from
the last recorded offset derive
`value = round((nextLeft / maxTravel) * maxValue)`, re-snap
`nextLeft = (maxTravel * value) / maxValue`, write `value` into the
shared store and the re-snapped `nextLeft` into the display state". -/
def dragMoveSpec (maxValue lastOffset maxTravel pointerOffset pointerX : ℚ) :
    DragData × Option (ℤ × ℚ) :=
  let candidate := pointerX + pointerOffset
  let nextLeft := min (max 0 candidate) maxTravel
  if nextLeft = lastOffset then
    ({ left := lastOffset, max := maxTravel, offset := pointerOffset }, none)
  else
    let value : ℤ := round ((nextLeft / maxTravel) * maxValue)
    let resnapped := (maxTravel * (value : ℚ)) / maxValue
    ({ left := resnapped, max := maxTravel, offset := pointerOffset },
      some (value, resnapped))

/-! ### Helper lemmas -/

theorem round_nonneg_of {q : ℚ} (h : 0 ≤ q) : 0 ≤ round q := by
  rw [round_eq]
  exact Int.le_floor.2 (by push_cast; linarith)

theorem round_le_int {q : ℚ} {M : ℤ} (h : q ≤ (M : ℚ)) : round q ≤ M := by
  rw [round_eq]
  have h2 : ⌊q + 1 / 2⌋ ≤ ⌊(M : ℚ) + 1 / 2⌋ := Int.floor_le_floor (by linarith)
  rwa [Int.floor_int_add, show ⌊(1 : ℚ) / 2⌋ = 0 by norm_num, add_zero] at h2

theorem round_mono_rat {a b : ℚ} (h : a ≤ b) : round a ≤ round b := by
  rw [round_eq, round_eq]
  exact Int.floor_le_floor (by linarith)

theorem dragMove_of_eq {M : ℚ} {dd : DragData} {x : ℚ}
    (h : dd.left = clampNext dd.max dd.offset x) :
    dragMove M dd x = (dd, none) := by
  unfold dragMove
  simp [h]

theorem dragMove_of_ne {M : ℚ} {dd : DragData} {x : ℚ}
    (h : dd.left ≠ clampNext dd.max dd.offset x) :
    dragMove M dd x =
      ({ dd with left := (emit M dd.max dd.offset x).2 },
        some (emit M dd.max dd.offset x)) := by
  unfold dragMove emit
  simp [h]

theorem dragMove_fst_max (M : ℚ) (dd : DragData) (x : ℚ) :
    (dragMove M dd x).1.max = dd.max := by
  by_cases h : dd.left = clampNext dd.max dd.offset x
  · rw [dragMove_of_eq h]
  · rw [dragMove_of_ne h]

theorem dragMove_fst_offset (M : ℚ) (dd : DragData) (x : ℚ) :
    (dragMove M dd x).1.offset = dd.offset := by
  by_cases h : dd.left = clampNext dd.max dd.offset x
  · rw [dragMove_of_eq h]
  · rw [dragMove_of_ne h]

theorem dragMove_write_emit {M : ℚ} {dd : DragData} {x : ℚ} {w : ℤ × ℚ}
    (h : (dragMove M dd x).2 = some w) :
    w = emit M dd.max dd.offset x := by
  by_cases hc : dd.left = clampNext dd.max dd.offset x
  · rw [dragMove_of_eq hc] at h
    cases h
  · rw [dragMove_of_ne hc] at h
    exact (Option.some.inj h).symm

theorem clampNext_nonneg (m o x : ℚ) : 0 ≤ clampNext m o x :=
  le_max_left 0 _

theorem clampNext_le {m : ℚ} (hm : 0 ≤ m) (o x : ℚ) : clampNext m o x ≤ m :=
  max_le hm (min_le_right _ _)

theorem clampNext_mono (m o : ℚ) {x y : ℚ} (h : x ≤ y) :
    clampNext m o x ≤ clampNext m o y :=
  max_le_max le_rfl (min_le_min (by linarith) le_rfl)

theorem emit_fst_nonneg (M : ℤ) (hM : 0 ≤ M) {m : ℚ} (hm : 0 < m) (o x : ℚ) :
    0 ≤ (emit (M : ℚ) m o x).1 := by
  unfold emit
  exact round_nonneg_of
    (mul_nonneg (div_nonneg (clampNext_nonneg m o x) hm.le) (by exact_mod_cast hM))

theorem emit_fst_le (M : ℤ) (hM : 0 ≤ M) {m : ℚ} (hm : 0 < m) (o x : ℚ) :
    (emit (M : ℚ) m o x).1 ≤ M := by
  unfold emit
  apply round_le_int
  have h1 : clampNext m o x / m ≤ 1 := (div_le_one hm).2 (clampNext_le hm.le o x)
  calc clampNext m o x / m * (M : ℚ) ≤ 1 * (M : ℚ) :=
        mul_le_mul_of_nonneg_right h1 (by exact_mod_cast hM)
    _ = (M : ℚ) := one_mul _

theorem emit_fst_mono (M m o : ℚ) (hM : 0 ≤ M) (hm : 0 < m) {x y : ℚ}
    (hxy : x ≤ y) : (emit M m o x).1 ≤ (emit M m o y).1 := by
  unfold emit
  apply round_mono_rat
  have h := clampNext_mono m o hxy
  gcongr

theorem runMoves_nil (M : ℚ) (dd : DragData) : runMoves M dd [] = (dd, []) := rfl

theorem runMoves_cons (M : ℚ) (dd : DragData) (x : ℚ) (xs : List ℚ) :
    runMoves M dd (x :: xs) =
      ((runMoves M (dragMove M dd x).1 xs).1,
        (dragMove M dd x).2.toList ++ (runMoves M (dragMove M dd x).1 xs).2) :=
  rfl

theorem runMoves_writes_sublist (M : ℚ) (dd : DragData) (xs : List ℚ) :
    List.Sublist (runMoves M dd xs).2 (xs.map (emit M dd.max dd.offset)) := by
  induction xs generalizing dd with
  | nil => exact List.Sublist.refl _
  | cons x xs ih =>
    rw [runMoves_cons, List.map_cons]
    by_cases h : dd.left = clampNext dd.max dd.offset x
    · rw [dragMove_of_eq h]
      exact (ih dd).cons _
    · rw [dragMove_of_ne h]
      exact (ih _).cons₂ _

theorem deliverMove_of_none {x : ℚ} {s : SysState}
    (h : (dragMove s.maxValue s.dd x).2 = none) :
    deliverMove x s = { s with dd := (dragMove s.maxValue s.dd x).1 } := by
  unfold deliverMove
  dsimp only
  rw [h]

theorem deliverMove_of_some {x : ℚ} {s : SysState} {v : ℤ} {l : ℚ}
    (h : (dragMove s.maxValue s.dd x).2 = some (v, l)) :
    deliverMove x s =
      { s with dd := (dragMove s.maxValue s.dd x).1,
               value := (v : ℚ), left := l } := by
  unfold deliverMove
  dsimp only
  rw [h]

/-- The invariant carried through every event: the shared `maxValue` is
the positive integer `M`, the measured travel distance is positive, and
the store value lies in `[0, maxValue]`. -/
def GoodState (M : ℤ) (s : SysState) : Prop :=
  s.maxValue = (M : ℚ) ∧ 0 < s.dd.max ∧ 0 ≤ s.value ∧ s.value ≤ s.maxValue

theorem deliverMove_good {M : ℤ} (hM : 0 < M) {s : SysState}
    (hs : GoodState M s) (x : ℚ) : GoodState M (deliverMove x s) := by
  obtain ⟨h1, h2, h3, h4⟩ := hs
  rcases hw : (dragMove s.maxValue s.dd x).2 with _ | w
  · rw [deliverMove_of_none hw]
    exact ⟨h1, by rw [dragMove_fst_max]; exact h2, h3, h4⟩
  · obtain ⟨v, l⟩ := w
    rw [deliverMove_of_some hw]
    have hvw := dragMove_write_emit hw
    rw [h1] at hvw
    have hv : v = (emit (M : ℚ) s.dd.max s.dd.offset x).1 := by
      rw [← hvw]
    refine ⟨h1, by rw [dragMove_fst_max]; exact h2, ?_, ?_⟩
    · show (0 : ℚ) ≤ (v : ℚ)
      have := emit_fst_nonneg M hM.le h2 s.dd.offset x
      rw [← hv] at this
      exact_mod_cast this
    · show (v : ℚ) ≤ s.maxValue
      have := emit_fst_le M hM.le h2 s.dd.offset x
      rw [← hv] at this
      rw [h1]
      exact_mod_cast this

theorem iterate_deliverMove_good {M : ℤ} (hM : 0 < M) (x : ℚ) :
    ∀ (n : Nat) (s : SysState), GoodState M s →
      GoodState M ((deliverMove x)^[n] s) := by
  intro n
  induction n with
  | zero => intro s hs; exact hs
  | succ n ih =>
    intro s hs
    rw [Function.iterate_succ_apply]
    exact ih _ (deliverMove_good hM hs x)

theorem stepEv_good {M : ℤ} (hM : 0 < M) {s : SysState}
    (hs : GoodState M s) (e : Ev) : GoodState M (stepEv s e) := by
  obtain ⟨h1, h2, h3, h4⟩ := hs
  cases e with
  | down x => exact ⟨h1, h2, h3, h4⟩
  | move x => exact iterate_deliverMove_good hM x _ s ⟨h1, h2, h3, h4⟩
  | up => exact ⟨h1, h2, h3, h4⟩

theorem runEvents_good {M : ℤ} (hM : 0 < M) (evs : List Ev) :
    ∀ s : SysState, GoodState M s → GoodState M (runEvents s evs) := by
  induction evs with
  | nil => intro s hs; exact hs
  | cons e evs ih =>
    intro s hs
    exact ih _ (stepEv_good hM hs e)

/-! ### Claim theorems -/

/-- C1: for every move event during a drag with `maxTravel > 0`, the
`drag` handler computes `candidate = pointerX + pointerOffset`, clamps
it to `[0, maxTravel]` giving `nextLeft`, and — exactly when `nextLeft`
differs from the last recorded offset — derives
`value = round((nextLeft / maxTravel) * maxValue)`, re-snaps `nextLeft`
to `(maxTravel * value) / maxValue`, writes `value` to the store and
the re-snapped `nextLeft` to the display state: the source handler
`dragMove` coincides with `dragMoveSpec`, the function transcribed from
the claim's words. -/
theorem drag_handler_refines_spec (M : ℚ) (dd : DragData) (x : ℚ)
    (hmax : 0 < dd.max) :
    dragMove M dd x = dragMoveSpec M dd.left dd.max dd.offset x := by
  have hcl : clampNext dd.max dd.offset x =
      min (max 0 (x + dd.offset)) dd.max := by
    unfold clampNext
    rw [max_min_distrib_left, max_eq_right hmax.le]
  unfold dragMove dragMoveSpec
  rw [hcl]
  by_cases h : min (max 0 (x + dd.offset)) dd.max = dd.left
  · rw [if_pos h, if_neg (by rw [h]; exact fun hc => hc rfl)]
  · rw [if_neg h, if_pos (Ne.symm h)]

/-- Witness for C1 at the canonical geometry (`maxValue = 100`,
`maxTravel = 288`, stored offset 144, pointer offset 0, pointer at
288). -/
theorem drag_handler_refines_spec_witness :
    dragMove 100 ⟨144, 288, 0⟩ 288 = dragMoveSpec 100 144 288 0 288 :=
  drag_handler_refines_spec 100 ⟨144, 288, 0⟩ 288 (by norm_num)

/-- C4: initialising the mapper with an integer `value` in
`[0, maxValue]` yields the pixel offset
`left = (maxTravel * value) / maxValue`, and reverse-mapping that
offset with `round((left / maxTravel) * maxValue)` returns the original
`value`. -/
theorem init_round_trip (M v : ℤ) (sliderW thumbW : ℚ) (hM : 0 < M)
    (_hv0 : 0 ≤ v) (_hvM : v ≤ M) (ht : 0 < sliderW - thumbW) :
    (initSlider (M : ℚ) (v : ℚ) sliderW thumbW).2 =
      ((sliderW - thumbW) * (v : ℚ)) / (M : ℚ) ∧
    round (((initSlider (M : ℚ) (v : ℚ) sliderW thumbW).2 /
      (sliderW - thumbW)) * (M : ℚ)) = v := by
  have hm : sliderW - thumbW ≠ 0 := ne_of_gt ht
  have hMq : (M : ℚ) ≠ 0 := Int.cast_ne_zero.2 (ne_of_gt hM)
  constructor
  · rfl
  · have hsimp : (initSlider (M : ℚ) (v : ℚ) sliderW thumbW).2 /
        (sliderW - thumbW) * (M : ℚ) = (v : ℚ) := by
      show ((sliderW - thumbW) * (v : ℚ)) / (M : ℚ) /
        (sliderW - thumbW) * (M : ℚ) = (v : ℚ)
      field_simp
      ring
    rw [hsimp, round_intCast]

/-- Witness for C4 at the application's geometry: `maxValue = 100`,
`value = 50`, track width 320, thumb width 32. -/
theorem init_round_trip_witness :
    (initSlider ((100 : ℤ) : ℚ) ((50 : ℤ) : ℚ) 320 32).2 =
      ((320 - 32) * ((50 : ℤ) : ℚ)) / ((100 : ℤ) : ℚ) ∧
    round (((initSlider ((100 : ℤ) : ℚ) ((50 : ℤ) : ℚ) 320 32).2 /
      (320 - 32)) * ((100 : ℤ) : ℚ)) = (50 : ℤ) :=
  init_round_trip 100 50 320 32 (by norm_num) (by norm_num) (by norm_num)
    (by norm_num)

/-- C10: the context value exposes exactly `maxValue`, `value` and
`setValue`; the only mutating operation, `setValue`, leaves `maxValue`
untouched, so after any sequence of exposed operations `maxValue` is
still its creation-time value 100, and the initial `value` is 50. -/
theorem maxValue_constant (ops : List StoreOp) :
    (ops.foldl applyOp initialSliderState).maxValue = 100 ∧
    initialSliderState.maxValue = 100 ∧ initialSliderState.value = 50 := by
  refine ⟨?_, rfl, rfl⟩
  have key : ∀ s : SliderState, (ops.foldl applyOp s).maxValue = s.maxValue := by
    induction ops with
    | nil => intro s; rfl
    | cons op ops ih =>
      intro s
      cases op with
      | setValue n => exact ih { s with value := n }
  rw [key initialSliderState]
  rfl

/-- C2: the slider state satisfies `0 ≤ value ≤ maxValue` in the
provider's initial state and after every store write the drag mapper
performs, for every sequence of pointer events, given a positive
integer `maxValue` and positive measured travel distance. -/
theorem value_invariant (M : ℤ) (hM : 0 < M) (s : SysState) (evs : List Ev)
    (hmax : s.maxValue = (M : ℚ)) (hm : 0 < s.dd.max)
    (h0 : 0 ≤ s.value) (h1 : s.value ≤ s.maxValue) :
    (0 ≤ initialSliderState.value ∧
      initialSliderState.value ≤ initialSliderState.maxValue) ∧
    (0 ≤ (runEvents s evs).value ∧
      (runEvents s evs).value ≤ (runEvents s evs).maxValue) := by
  have hg := runEvents_good hM evs s ⟨hmax, hm, h0, h1⟩
  exact ⟨⟨by norm_num [initialSliderState], by norm_num [initialSliderState]⟩,
    hg.2.2.1, hg.2.2.2⟩

/-- Witness for C2: the mounted application state followed by a
press-drag-release sequence. -/
theorem value_invariant_witness :
    (0 ≤ initialSliderState.value ∧
      initialSliderState.value ≤ initialSliderState.maxValue) ∧
    (0 ≤ (runEvents initApp [Ev.down 10, Ev.move 100, Ev.up]).value ∧
      (runEvents initApp [Ev.down 10, Ev.move 100, Ev.up]).value ≤
        (runEvents initApp [Ev.down 10, Ev.move 100, Ev.up]).maxValue) :=
  value_invariant 100 (by norm_num) initApp [Ev.down 10, Ev.move 100, Ev.up]
    (by norm_num [initApp]) (by norm_num [initApp, initSlider])
    (by norm_num [initApp]) (by norm_num [initApp])

/-- C3 counterexample: two move events with the identical clamped
offset 100 (geometry `maxValue = 100`, `maxTravel = 288`, stored offset
144, pointer offset 0) produce two store writes and two display writes,
not one: after the first event the stored offset is the re-snapped
`504/5`, which differs from the raw clamped offset 100, so the second
event re-enters the write branch. -/
theorem second_identical_move_two_writes :
    (runMoves 100 ⟨144, 288, 0⟩ [100, 100]).2 =
      [(35, 504 / 5), (35, 504 / 5)] ∧
    (runMoves 100 ⟨144, 288, 0⟩ [100, 100]).2.length ≠ 1 := by
  have dm1 : dragMove 100 ⟨144, 288, 0⟩ 100 =
      (⟨504 / 5, 288, 0⟩, some (35, 504 / 5)) := by
    norm_num [dragMove, clampNext, round_eq]
  have dm2 : dragMove 100 ⟨504 / 5, 288, 0⟩ 100 =
      (⟨504 / 5, 288, 0⟩, some (35, 504 / 5)) := by
    norm_num [dragMove, clampNext, round_eq]
  constructor
  · rw [runMoves_cons, dm1]
    rw [runMoves_cons, dm2]
    rw [runMoves_nil]
    rfl
  · rw [runMoves_cons, dm1]
    rw [runMoves_cons, dm2]
    rw [runMoves_nil]
    decide

/-- C3 (amended): delivering a second move event whose clamped offset
is identical to the first one's produces no further state change — the
drag data is unchanged and any writes the second event performs repeat
exactly the first event's written values (the handler may re-enter the
write branch, because it compares the raw clamped offset against the
re-snapped stored offset, but it rewrites the same value and the same
display offset). -/
theorem second_identical_move_no_change (M : ℚ) (dd : DragData)
    (x₁ x₂ : ℚ)
    (h : clampNext dd.max dd.offset x₁ = clampNext dd.max dd.offset x₂) :
    (dragMove M (dragMove M dd x₁).1 x₂).1 = (dragMove M dd x₁).1 ∧
    ((dragMove M (dragMove M dd x₁).1 x₂).2 = none ∨
      (dragMove M (dragMove M dd x₁).1 x₂).2 = (dragMove M dd x₁).2) := by
  by_cases h1 : dd.left = clampNext dd.max dd.offset x₁
  · rw [dragMove_of_eq h1]
    dsimp only
    rw [dragMove_of_eq (h1.trans h)]
    exact ⟨rfl, Or.inl rfl⟩
  · rw [dragMove_of_ne h1]
    dsimp only
    by_cases h2 : (emit M dd.max dd.offset x₁).2 =
        clampNext dd.max dd.offset x₂
    · rw [dragMove_of_eq h2]
      exact ⟨rfl, Or.inl rfl⟩
    · rw [dragMove_of_ne h2]
      have he : emit M dd.max dd.offset x₂ = emit M dd.max dd.offset x₁ := by
        unfold emit
        rw [← h]
      rw [he]
      exact ⟨rfl, Or.inr rfl⟩

/-- Witness for the amended C3 at the counterexample's inputs. -/
theorem second_identical_move_no_change_witness :
    (dragMove 100 (dragMove 100 ⟨144, 288, 0⟩ 100).1 100).1 =
      (dragMove 100 ⟨144, 288, 0⟩ 100).1 ∧
    ((dragMove 100 (dragMove 100 ⟨144, 288, 0⟩ 100).1 100).2 = none ∨
      (dragMove 100 (dragMove 100 ⟨144, 288, 0⟩ 100).1 100).2 =
        (dragMove 100 ⟨144, 288, 0⟩ 100).2) :=
  second_identical_move_no_change 100 ⟨144, 288, 0⟩ 100 100 rfl

/-- C5: for every sequence of move events with monotonically increasing
pointer coordinates (fixed gesture geometry, `maxTravel > 0`,
`maxValue > 0`), the sequence of values written to the shared store is
monotonically non-decreasing. -/
theorem emitted_values_monotone (M : ℚ) (hM : 0 < M) (dd : DragData)
    (hm : 0 < dd.max) (xs : List ℚ) (hxs : xs.Pairwise (· < ·)) :
    ((runMoves M dd xs).2.map Prod.fst).Pairwise (· ≤ ·) := by
  have hsub : List.Sublist ((runMoves M dd xs).2.map Prod.fst)
      ((xs.map (emit M dd.max dd.offset)).map Prod.fst) :=
    (runMoves_writes_sublist M dd xs).map _
  rw [List.map_map] at hsub
  have hall : (xs.map (Prod.fst ∘ emit M dd.max dd.offset)).Pairwise
      (· ≤ ·) := by
    rw [List.pairwise_map]
    exact hxs.imp fun hab => emit_fst_mono M dd.max dd.offset hM.le hm hab.le
  exact hall.sublist hsub

/-- Witness for C5: an increasing three-event drag from the mounted
application geometry. -/
theorem emitted_values_monotone_witness :
    ((runMoves 100 ⟨144, 288, 0⟩ [0, 150, 400]).2.map Prod.fst).Pairwise
      (· ≤ ·) :=
  emitted_values_monotone 100 (by norm_num) ⟨144, 288, 0⟩ (by norm_num)
    [0, 150, 400] (by norm_num)

/-- C6: with a positive integer `maxValue` and `maxTravel > 0`, a move
event whose candidate offset is below 0 is clamped so that any write it
performs carries value 0 (the no-write case only happens when the
stored offset already is 0), and a candidate above `maxTravel` is
clamped so that any write carries value `maxValue` with re-snapped
offset `maxTravel`; concretely, with `maxValue = 100`, track width 320
and thumb width 32 (so `maxTravel = 288`) and stored offset 144, a
candidate offset of 288 yields value 100 with re-snapped offset 288,
and a candidate offset of −50 yields value 0. -/
theorem clamp_boundary (M : ℤ) (hM : 0 < M) (dd : DragData)
    (hm : 0 < dd.max) (x : ℚ) :
    (x + dd.offset < 0 →
      (dragMove (M : ℚ) dd x).2 = some (0, 0) ∨
        ((dragMove (M : ℚ) dd x).2 = none ∧ dd.left = 0)) ∧
    (dd.max < x + dd.offset →
      (dragMove (M : ℚ) dd x).2 = some (M, dd.max) ∨
        ((dragMove (M : ℚ) dd x).2 = none ∧ dd.left = dd.max)) ∧
    dragMove 100 ⟨144, 288, 0⟩ 288 = (⟨288, 288, 0⟩, some (100, 288)) ∧
    dragMove 100 ⟨144, 288, 0⟩ (-50) = (⟨0, 288, 0⟩, some (0, 0)) := by
  have hMq : (M : ℚ) ≠ 0 := Int.cast_ne_zero.2 (ne_of_gt hM)
  refine ⟨?_, ?_, ?_, ?_⟩
  · intro hlow
    have hnext : clampNext dd.max dd.offset x = 0 := by
      unfold clampNext
      rw [min_eq_left (by linarith), max_eq_left (by linarith)]
    by_cases hl : dd.left = 0
    · exact Or.inr ⟨by rw [dragMove_of_eq (by rw [hnext]; exact hl)], hl⟩
    · left
      rw [dragMove_of_ne (by rw [hnext]; exact hl)]
      have he : emit (M : ℚ) dd.max dd.offset x = (0, 0) := by
        unfold emit
        rw [hnext]
        norm_num
      rw [he]
  · intro hhigh
    have hnext : clampNext dd.max dd.offset x = dd.max := by
      unfold clampNext
      rw [min_eq_right hhigh.le, max_eq_right hm.le]
    by_cases hl : dd.left = dd.max
    · exact Or.inr ⟨by rw [dragMove_of_eq (by rw [hnext]; exact hl)], hl⟩
    · left
      rw [dragMove_of_ne (by rw [hnext]; exact hl)]
      have he : emit (M : ℚ) dd.max dd.offset x = (M, dd.max) := by
        unfold emit
        simp only [hnext, div_self (ne_of_gt hm), one_mul, round_intCast,
          mul_div_assoc, div_self hMq, mul_one]
      rw [he]
  · norm_num [dragMove, clampNext, round_eq]
  · norm_num [dragMove, clampNext, round_eq]

/-- Witness for C6 at the scenario's own inputs (candidate offset 288,
which makes the first antecedent false and the second antecedent
false, while the two concrete conjuncts are closed facts). -/
theorem clamp_boundary_witness :
    ((288 : ℚ) + (DragData.mk 144 288 0).offset < 0 →
      (dragMove ((100 : ℤ) : ℚ) ⟨144, 288, 0⟩ 288).2 = some (0, 0) ∨
        ((dragMove ((100 : ℤ) : ℚ) ⟨144, 288, 0⟩ 288).2 = none ∧
          (DragData.mk 144 288 0).left = 0)) ∧
    ((DragData.mk 144 288 0).max < 288 + (DragData.mk 144 288 0).offset →
      (dragMove ((100 : ℤ) : ℚ) ⟨144, 288, 0⟩ 288).2 =
        some ((100 : ℤ), (DragData.mk 144 288 0).max) ∨
        ((dragMove ((100 : ℤ) : ℚ) ⟨144, 288, 0⟩ 288).2 = none ∧
          (DragData.mk 144 288 0).left = (DragData.mk 144 288 0).max)) ∧
    dragMove 100 ⟨144, 288, 0⟩ 288 = (⟨288, 288, 0⟩, some (100, 288)) ∧
    dragMove 100 ⟨144, 288, 0⟩ (-50) = (⟨0, 288, 0⟩, some (0, 0)) :=
  clamp_boundary 100 (by norm_num) ⟨144, 288, 0⟩ (by norm_num) 288

/-- C7 counterexample: with `maxValue = 100`, `value = 50`, track width
320 and thumb width 400 the thumb is wider than the track
(`maxTravel = -80`), and `initialize` sets the pixel offset to −40, not
to 0 as the claim states. -/
theorem init_negative_travel_offset :
    (initSlider 100 50 320 400).2 = -40 ∧
    (initSlider 100 50 320 400).2 ≠ 0 := by
  constructor <;> norm_num [initSlider]

/-- C7 (amended): when the thumb is wider than the track
(`maxTravel < 0`), every move event degenerates to the zero-travel
slider: after the event the stored offset is 0 and any write it
performs is `(value 0, offset 0)`; after initialisation alone, however,
the offset is `(maxTravel * value) / maxValue`, which is negative (not
0) whenever `value > 0`. -/
theorem negative_travel_drag (M : ℚ) (dd : DragData) (x : ℚ)
    (h : dd.max < 0) (maxValue value sliderW thumbW : ℚ) :
    (dragMove M dd x).1.left = 0 ∧
    ((dragMove M dd x).2 = none ∨ (dragMove M dd x).2 = some (0, 0)) ∧
    (initSlider maxValue value sliderW thumbW).2 =
      ((sliderW - thumbW) * value) / maxValue := by
  have hnext : clampNext dd.max dd.offset x = 0 := by
    unfold clampNext
    have hmin : min (x + dd.offset) dd.max ≤ 0 :=
      le_trans (min_le_right _ _) h.le
    rw [max_eq_left hmin]
  have main : (dragMove M dd x).1.left = 0 ∧
      ((dragMove M dd x).2 = none ∨ (dragMove M dd x).2 = some (0, 0)) := by
    by_cases hl : dd.left = 0
    · rw [dragMove_of_eq (by rw [hnext]; exact hl)]
      exact ⟨hl, Or.inl rfl⟩
    · rw [dragMove_of_ne (by rw [hnext]; exact hl)]
      have he : emit M dd.max dd.offset x = (0, 0) := by
        unfold emit
        rw [hnext]
        norm_num
      rw [he]
      exact ⟨rfl, Or.inr rfl⟩
  exact ⟨main.1, main.2, rfl⟩

/-- Witness for the amended C7: the drag state after the degenerate
initialisation (`maxTravel = -80`, stored offset −40). -/
theorem negative_travel_drag_witness :
    (dragMove 100 ⟨-40, -80, 0⟩ 10).1.left = 0 ∧
    ((dragMove 100 ⟨-40, -80, 0⟩ 10).2 = none ∨
      (dragMove 100 ⟨-40, -80, 0⟩ 10).2 = some (0, 0)) ∧
    (initSlider 100 50 320 400).2 = ((320 - 400) * 50) / 100 :=
  negative_travel_drag 100 ⟨-40, -80, 0⟩ 10 (by norm_num) 100 50 320 400

/-- C9: evaluation at the failing input. `startDrag` registers a fresh
`mousemove` listener unconditionally on every mousedown, so a second
mousedown delivered while a drag is in progress leaves two move
listeners registered at once, contradicting the claim that at most one
is ever registered. -/
theorem duplicate_mousedown_two_listeners :
    (runEvents initApp [Ev.down 10, Ev.down 20]).listeners = 2 ∧
    ¬ (runEvents initApp [Ev.down 10, Ev.down 20]).listeners ≤ 1 := by
  have h : (runEvents initApp [Ev.down 10, Ev.down 20]).listeners = 2 := by
    simp only [runEvents, List.foldl, stepEv, handleDown]
    rfl
  exact ⟨h, by rw [h]; decide⟩

end ReactSlider
